import Mathlib

/-!
Verification of the sagre-crawler extraction pipeline.

This file gives a shallow embedding, in Lean, of the date-normalization,
temporal-filtering, duplicate-detection, slug-generation and coordinate
extraction logic of the crawler, translated from the TypeScript source
(src/utils/helpers.ts, src/websites/assosagre/routes.ts,
src/websites/viviromagna/routes.ts, src/routes.ts, src/strapi.ts), and
proves or refutes the specified properties about it.

Modelling conventions:
- JavaScript strings are Lean Strings; the regex scans are implemented
  directly over the character list with the exact leftmost-match,
  greedy-with-backtracking semantics of the concrete patterns used by
  the source.
- A JavaScript Date is modelled at day granularity as the number of days
  since 1970-01-01 (an Int).  The crawler only ever builds dates at
  midnight and compares them, so the millisecond clock adds nothing; the
  process is modelled as running with its clock in UTC, so that local
  midnight and the UTC date of toISOString agree.
- The current day (new Date() truncated to start of day) is passed as an
  explicit parameter named today.
- The module-level seen-set of the duplicate detector is passed as
  explicit state (a list of keys).
-/

namespace SagreCrawler

/-! ## Character classes (JavaScript regex classes over the used alphabet) -/

/-- JavaScript regex \d -/
def isDigitCh (c : Char) : Bool := '0' ≤ c && c ≤ '9'

/-- JavaScript regex \s (the whitespace characters that occur in practice). -/
def isWSCh (c : Char) : Bool :=
  c = ' ' || c = '\t' || c = '\n' || c = '\r' ||
  c = Char.ofNat 0x0b || c = Char.ofNat 0x0c || c = Char.ofNat 0xa0

/-- JavaScript regex \w (word character, used by the \b boundary). -/
def isWordCh (c : Char) : Bool :=
  ('a' ≤ c && c ≤ 'z') || ('A' ≤ c && c ≤ 'Z') || isDigitCh c || c = '_'

/-- Character class [a-zà-ù] of the full-date pattern
    (the input is lowercased before this pattern is applied). -/
def isMonthLetter (c : Char) : Bool :=
  ('a' ≤ c && c ≤ 'z') || (0xE0 ≤ c.toNat && c.toNat ≤ 0xF9)

/-- String.prototype.toLowerCase restricted to the Latin alphabet the
    crawler sees: ASCII letters and the Latin-1 letters À..Þ (U+00C0..U+00DE,
    excluding the multiplication sign U+00D7). -/
def jsToLower (c : Char) : Char :=
  if 'A' ≤ c && c ≤ 'Z' then Char.ofNat (c.toNat + 32)
  else if 0xC0 ≤ c.toNat && c.toNat ≤ 0xDE && c.toNat ≠ 0xD7 then
    Char.ofNat (c.toNat + 32)
  else c

/-- String.prototype.trim (drop leading and trailing whitespace). -/
def jsTrim (cs : List Char) : List Char :=
  ((cs.dropWhile isWSCh).reverse.dropWhile isWSCh).reverse

/-- parseInt on a string of decimal digits. -/
def digitsToNat (cs : List Char) : Nat :=
  cs.foldl (fun acc c => acc * 10 + (c.toNat - '0'.toNat)) 0

/-! ## Calendar arithmetic

new Date(year, month, day) is modelled by its day number: the number of
days between the named civil date and 1970-01-01, with day overflow
carried exactly as the Date constructor carries it. -/

/-- Day number of a civil date (Howard Hinnant days_from_civil algorithm);
    m is 1..12, d may be any Int (overflow and underflow carry). -/
def daysFromCivil (y : Int) (m : Int) (d : Int) : Int :=
  let y2 : Int := if m ≤ 2 then y - 1 else y
  let era : Int := Int.fdiv y2 400
  let yoe : Int := y2 - era * 400
  let mp : Int := if 2 < m then m - 3 else m + 9
  let doy : Int := Int.fdiv (153 * mp + 2) 5 + d - 1
  let doe : Int := yoe * 365 + Int.fdiv yoe 4 - Int.fdiv yoe 100 + doy
  era * 146097 + doe - 719468

/-- Civil date (year, month 1..12, day 1..31) of a day number
    (Howard Hinnant civil_from_days algorithm). -/
def civilFromDays (z0 : Int) : Int × Int × Int :=
  let z : Int := z0 + 719468
  let era : Int := Int.fdiv z 146097
  let doe : Int := z - era * 146097
  let yoe : Int :=
    Int.fdiv (doe - Int.fdiv doe 1460 + Int.fdiv doe 36524 - Int.fdiv doe 146096) 365
  let y : Int := yoe + era * 400
  let doy : Int := doe - (365 * yoe + Int.fdiv yoe 4 - Int.fdiv yoe 100)
  let mp : Int := Int.fdiv (5 * doy + 2) 153
  let d : Int := doy - Int.fdiv (153 * mp + 2) 5 + 1
  let m : Int := if mp < 10 then mp + 3 else mp - 9
  (if m ≤ 2 then y + 1 else y, m, d)

def isLeapYear (y : Int) : Bool :=
  (y % 4 = 0 && y % 100 ≠ 0) || y % 400 = 0

def daysInMonth (y : Int) (m : Int) : Int :=
  if m = 2 then (if isLeapYear y then 29 else 28)
  else if m = 4 || m = 6 || m = 9 || m = 11 then 30
  else 31

/-- new Date(year, monthIndex, day): monthIndex is 0-based as in JS. -/
def jsMakeDate (year : Int) (monthIndex : Int) (day : Int) : Int :=
  daysFromCivil year (monthIndex + 1) day

/-- getMonth() of a date (0-based month). -/
def jsGetMonth (epochDay : Int) : Int := (civilFromDays epochDay).2.1 - 1

/-- getFullYear() of a date. -/
def jsGetFullYear (epochDay : Int) : Int := (civilFromDays epochDay).1

/-- new Date(string) for the ISO calendar-date form YYYY-MM-DD, the only
    form the crawler produces for startDate and endDate; out-of-range
    components give an invalid date (none), as in ECMAScript.  Any other
    shape of string is modelled as unparseable. -/
def jsParseDate (s : String) : Option Int :=
  match s.data with
  | [y1, y2, y3, y4, '-', m1, m2, '-', d1, d2] =>
    if isDigitCh y1 && isDigitCh y2 && isDigitCh y3 && isDigitCh y4 &&
       isDigitCh m1 && isDigitCh m2 && isDigitCh d1 && isDigitCh d2 then
      let y : Int := (digitsToNat [y1, y2, y3, y4] : Int)
      let m : Int := (digitsToNat [m1, m2] : Int)
      let d : Int := (digitsToNat [d1, d2] : Int)
      if 1 ≤ m && m ≤ 12 && 1 ≤ d && d ≤ daysInMonth y m then
        some (daysFromCivil y m d)
      else none
    else none
  | _ => none

/-- Decimal digits of a Nat, zero padded on the left to width w. -/
def padNat (w : Nat) (n : Nat) : List Char :=
  let ds := (Nat.repr n).data
  List.replicate (w - ds.length) '0' ++ ds

/-- date.toISOString().split("T")[0] under the UTC clock model:
    the YYYY-MM-DD rendering of the civil date of the day number. -/
def formatISODate (epochDay : Int) : String :=
  let c := civilFromDays epochDay
  String.mk (padNat 4 c.1.toNat ++ '-' :: padNat 2 c.2.1.toNat ++ '-' :: padNat 2 c.2.2.toNat)

/-! ## The full-date pattern /(\d{1,2})\s+([a-zà-ù]+)\s+(\d{4})/gi

parseItalianDate applies this pattern with matchAll to the lowercased,
trimmed input.  The scan below implements exactly its semantics: at each
start position try \d{1,2} greedily (two digits, falling back to one),
then \s+, [a-zà-ù]+ and \s+ by maximal munch (each class is disjoint
from its successor, so maximal munch is exact), then exactly four
digits; successive matches do not overlap. -/

/-- Match \s+([a-zà-ù]+)\s+(\d{4}) at the head; returns
    (month word, year digits, suffix after the match). -/
def fullDateTail (cs : List Char) : Option (List Char × List Char × List Char) :=
  if (cs.takeWhile isWSCh).isEmpty then none else
  if ((cs.dropWhile isWSCh).takeWhile isMonthLetter).isEmpty then none else
  if (((cs.dropWhile isWSCh).dropWhile isMonthLetter).takeWhile isWSCh).isEmpty then none else
  match ((cs.dropWhile isWSCh).dropWhile isMonthLetter).dropWhile isWSCh with
  | a :: b :: c :: d :: rest =>
    if isDigitCh a && isDigitCh b && isDigitCh c && isDigitCh d then
      some ((cs.dropWhile isWSCh).takeWhile isMonthLetter, [a, b, c, d], rest)
    else none
  | _ => none

/-- One matched (day digits, month word, year digits) triple. -/
structure FullDateMatch where
  dayDigits : List Char
  monthWord : List Char
  yearDigits : List Char
deriving DecidableEq, Repr

/-- Try to match the whole pattern at the head of cs; returns the match
    and the suffix after it. -/
def tryFullDateAt (cs : List Char) : Option (FullDateMatch × List Char) :=
  match cs with
  | a :: b :: rest2 =>
    if isDigitCh a then
      if isDigitCh b then
        -- greedy \d{1,2}: two digits; the fallback to one digit would
        -- need b to be whitespace, impossible since b is a digit
        match fullDateTail rest2 with
        | some (mon, yr, suf) => some (⟨[a, b], mon, yr⟩, suf)
        | none => none
      else
        match fullDateTail (b :: rest2) with
        | some (mon, yr, suf) => some (⟨[a], mon, yr⟩, suf)
        | none => none
    else none
  | _ => none -- a lone trailing digit cannot be followed by the month and year

/-- matchAll scan (fuel-indexed; fuel = list length suffices since every
    step consumes at least one character). -/
def fullDateScan : Nat → List Char → List FullDateMatch
  | 0, _ => []
  | _, [] => []
  | fuel + 1, c :: rest =>
    match tryFullDateAt (c :: rest) with
    | some (m, suffix) => m :: fullDateScan fuel suffix
    | none => fullDateScan fuel rest

def fullDateMatches (cs : List Char) : List FullDateMatch :=
  fullDateScan cs.length cs

/-- Whether the text contains four consecutive decimal digits; the
    full-date pattern cannot match without such a run (its year part). -/
def hasFourDigitRun : List Char → Bool
  | a :: b :: c :: d :: rest =>
    (isDigitCh a && isDigitCh b && isDigitCh c && isDigitCh d) ||
      hasFourDigitRun (b :: c :: d :: rest)
  | _ => false

/-! ## parseItalianDate (src/utils/helpers.ts lines 13-50) -/

/-- The monthMap of parseItalianDate: Italian month name to 0-based index. -/
def monthMap (w : List Char) : Option Int :=
  if w = "gennaio".data then some 0
  else if w = "febbraio".data then some 1
  else if w = "marzo".data then some 2
  else if w = "aprile".data then some 3
  else if w = "maggio".data then some 4
  else if w = "giugno".data then some 5
  else if w = "luglio".data then some 6
  else if w = "agosto".data then some 7
  else if w = "settembre".data then some 8
  else if w = "ottobre".data then some 9
  else if w = "novembre".data then some 10
  else if w = "dicembre".data then some 11
  else none

/-- dateStr.toLowerCase().trim() -/
def normChars (s : String) : List Char := jsTrim (s.data.map jsToLower)

/-- parseItalianDate: extract all (day, month-word, year) triples of the
    full-date pattern from the normalized input, take the last one, look
    its word up in the month map, and build the Date; null when there is
    no match or the word of the last match is not a month name.
    (The isNaN guards of the source can never fire: the day and year
    captures are digit strings.) -/
def parseItalianDate (dateStr : String) : Option Int :=
  match (fullDateMatches (normChars dateStr)).getLast? with
  | none => none
  | some m =>
    match monthMap m.monthWord with
    | none => none
    | some month =>
      some (jsMakeDate (digitsToNat m.yearDigits) month (digitsToNat m.dayDigits))

/-! ## The festival record

Only the fields consulted by the verified functions are carried; the
remaining fields of the candidate record (images, paragraphs, contacts,
...) are never read by the date, duplicate or coordinate logic. -/

/-- The geo part of a structured location object; coordinates are
    modelled as rationals (the source holds JS numbers; none of the
    verified logic depends on floating-point rounding, only on presence
    and on comparison with zero). -/
structure GeoVal where
  latitude : Option Rat := none
  longitude : Option Rat := none
deriving DecidableEq, Repr

/-- location is a free-text string OR a structured place object (name +
    optional geo) OR absent; name is none when the object has no name
    field. -/
inductive LocationVal where
  | absent
  | str (s : String)
  | obj (name : Option String) (geo : Option GeoVal)
deriving DecidableEq, Repr

structure FestivalRecord where
  url : String := ""
  title : String := ""
  startDate : Option String := none
  endDate : Option String := none
  dates : List String := []
  location : LocationVal := .absent
  province : String := ""
deriving DecidableEq, Repr

/-- Truthiness of an optional string field (undefined and "" are falsy). -/
def truthyStr : Option String → Bool
  | none => false
  | some s => s ≠ ""

/-! ## isFestivalPast (src/utils/helpers.ts lines 55-90)

today is the day number of the start of the current day. -/

/-- The endDate branch (and identically the startDate branch): when the
    field is truthy and new Date(field) is valid, the verdict is
    (date < today); otherwise fall through. -/
def pastViaField (today : Int) (field : Option String) : Option Bool :=
  match field with
  | none => none
  | some s => if s = "" then none else (jsParseDate s).map (fun d => decide (d < today))

def isFestivalPast (today : Int) (r : FestivalRecord) : Bool :=
  match pastViaField today r.endDate with
  | some b => b
  | none =>
    match pastViaField today r.startDate with
    | some b => b
    | none =>
      if r.dates.length > 0 then
        -- the loop returns false at the first fragment that parses to a
        -- date on/after today, and true after the loop otherwise
        !(r.dates.any fun s =>
          match parseItalianDate s with
          | some d => decide (today ≤ d)
          | none => false)
      else false

/-! ## generateFestivalKey and isDuplicate (src/utils/helpers.ts lines 96-145) -/

def lowerTrim (s : String) : List Char := jsTrim (s.data.map jsToLower)

/-- generateFestivalKey: normalized title, location string and rough
    month-year key joined with | separators. -/
def generateFestivalKey (r : FestivalRecord) : String :=
  let normalizedTitle := lowerTrim r.title
  let locationStr :=
    match r.location with
    | .str s => lowerTrim s
    | .obj (some name) _ => lowerTrim name
    | _ => []
  let dateKey :=
    if truthyStr r.startDate then
      match jsParseDate ((r.startDate).getD "") with
      | some d => (jsGetMonth d).repr.data ++ '-' :: (jsGetFullYear d).repr.data
      | none => []
    else
      match r.dates with
      | [] => []
      | s0 :: _ =>
        match parseItalianDate s0 with
        | some d => (jsGetMonth d).repr.data ++ '-' :: (jsGetFullYear d).repr.data
        | none => []
  String.mk (normalizedTitle ++ '|' :: locationStr ++ '|' :: dateKey)

/-- isDuplicate with the module-level seen-set passed as explicit state;
    returns the boolean result and the updated set. -/
def isDuplicate (r : FestivalRecord) (seen : List String) : Bool × List String :=
  if generateFestivalKey r ∈ seen then (true, seen)
  else (false, generateFestivalKey r :: seen)

/-- clearDuplicateCache resets the seen-set to empty. -/
def clearDuplicateCache : List String := []

/-- A sequence of isDuplicate calls threaded through the seen-set. -/
def runDuplicateCalls (rs : List FestivalRecord) (seen : List String) : List String :=
  rs.foldl (fun st r => (isDuplicate r st).2) seen

/-! ## The patterns of parseSagradateText (src/utils/constants.ts)

YEAR          = /\b(20\d{2})\b/
ITALIAN_MONTH = /(gennaio|febbraio|...|dicembre)/gi
DAY_NUMBERS   = /\b(\d{1,2})(?:\s*-\s*(\d{1,2}))*\b/g
plus the inline /\b(\d{1,2})\b/g of the two-month branch and the
String.prototype.split separator /\s*-\s*/. -/

def headIsWord : List Char → Bool
  | [] => false
  | c :: _ => isWordCh c

/-- First match of /\b(20\d{2})\b/: scans positions left to right,
    tracking whether the previous character is a word character. -/
def yearScan : Nat → Bool → List Char → Option (List Char)
  | 0, _, _ => none
  | _, _, [] => none
  | fuel + 1, prevWord, c :: rest =>
    (if !prevWord && c = '2' then
      match rest with
      | '0' :: d1 :: d2 :: rest2 =>
        if isDigitCh d1 && isDigitCh d2 && !headIsWord rest2 then
          some ['2', '0', d1, d2]
        else none
      | _ => none
    else none).orElse fun _ => yearScan fuel (isWordCh c) rest

def yearFirstMatch (cs : List Char) : Option (List Char) :=
  yearScan (cs.length + 1) false cs

/-- Does hay start with the lowercase word, comparing case-insensitively
    (the i flag of ITALIAN_MONTH)? -/
def startsWithCI : List Char → List Char → Bool
  | [], _ => true
  | _ :: _, [] => false
  | n :: ns, c :: cs => (jsToLower c = n) && startsWithCI ns cs

def monthNamesLC : List (List Char) :=
  ["gennaio".data, "febbraio".data, "marzo".data, "aprile".data,
   "maggio".data, "giugno".data, "luglio".data, "agosto".data,
   "settembre".data, "ottobre".data, "novembre".data, "dicembre".data]

/-- Length of the alternative of ITALIAN_MONTH matching at the head, if
    any (no two month names can match at the same position). -/
def matchMonthAt (cs : List Char) : Option Nat :=
  monthNamesLC.findSome? fun n => if startsWithCI n cs then some n.length else none

/-- matchAll of ITALIAN_MONTH; each element is the matched slice of the
    original text (original case, as m[0] in JS). -/
def monthScan : Nat → List Char → List (List Char)
  | 0, _ => []
  | _, [] => []
  | fuel + 1, c :: rest =>
    match matchMonthAt (c :: rest) with
    | some n => (c :: rest).take n :: monthScan fuel ((c :: rest).drop n)
    | none => monthScan fuel rest

def monthMatches (cs : List Char) : List (List Char) :=
  monthScan cs.length cs

/-- The (?:\s*-\s*(\d{1,2}))* loop of DAY_NUMBERS together with the
    trailing \b, with full greedy backtracking: from rem, with acc
    characters of the match consumed so far, first try to extend with one
    more -day group (two digits greedily, then one), and fall back to
    ending the match here when the trailing word boundary allows it.
    Returns the total length of the match. -/
def dayGroupLoop : Nat → List Char → Nat → Option Nat
  | 0, _, _ => none
  | fuel + 1, rem, acc =>
    let ext : Option Nat :=
      let (ws1, r1) := rem.span isWSCh
      match r1 with
      | '-' :: r2 =>
        let (ws2, r3) := r2.span isWSCh
        let pre := ws1.length + 1 + ws2.length
        match r3 with
        | a :: b :: rest =>
          if isDigitCh a then
            if isDigitCh b then
              match dayGroupLoop fuel rest (acc + pre + 2) with
              | some n => some n
              | none => dayGroupLoop fuel (b :: rest) (acc + pre + 1)
            else dayGroupLoop fuel (b :: rest) (acc + pre + 1)
          else none
        | [a] => if isDigitCh a then dayGroupLoop fuel [] (acc + pre + 1) else none
        | [] => none
      | _ => none
    match ext with
    | some n => some n
    | none => if headIsWord rem then none else some acc

/-- Length of the DAY_NUMBERS match at the head of cs (the caller has
    already established the leading word boundary): \d{1,2} greedily,
    then the group loop. -/
def dayMatchAt (cs : List Char) : Option Nat :=
  match cs with
  | [] => none
  | a :: rest =>
    if isDigitCh a then
      match rest with
      | b :: rest2 =>
        if isDigitCh b then
          match dayGroupLoop (rest2.length + 1) rest2 2 with
          | some n => some n
          | none => dayGroupLoop (rest.length + 1) rest 1
        else dayGroupLoop (rest.length + 1) rest 1
      | [] => some 1
    else none

/-- matchAll of DAY_NUMBERS: scan positions, a match may only start at a
    word boundary; the scan resumes after each match (whose last
    character is always a digit, hence a word character). -/
def dayNumbersScan : Nat → Bool → List Char → List (List Char)
  | 0, _, _ => []
  | _, _, [] => []
  | fuel + 1, prevWord, c :: rest =>
    if !prevWord then
      match dayMatchAt (c :: rest) with
      | some n => (c :: rest).take n :: dayNumbersScan fuel true ((c :: rest).drop n)
      | none => dayNumbersScan fuel (isWordCh c) rest
    else dayNumbersScan fuel (isWordCh c) rest

def dayNumbersMatches (cs : List Char) : List (List Char) :=
  dayNumbersScan cs.length false cs

/-- matchAll of the simple /\b(\d{1,2})\b/g: length of a match at a
    position whose leading boundary was already checked. -/
def simpleDayAt : List Char → Option Nat
  | [] => none
  | [a] => if isDigitCh a then some 1 else none
  | [a, b] =>
    if isDigitCh a then
      if isDigitCh b then some 2
      else if isWordCh b then none else some 1
    else none
  | a :: b :: c :: _ =>
    if isDigitCh a then
      if isDigitCh b then (if isWordCh c then none else some 2)
      else if isWordCh b then none else some 1
    else none

def simpleDayScan : Nat → Bool → List Char → List (List Char)
  | 0, _, _ => []
  | _, _, [] => []
  | fuel + 1, prevWord, c :: rest =>
    if !prevWord then
      match simpleDayAt (c :: rest) with
      | some n => (c :: rest).take n :: simpleDayScan fuel true ((c :: rest).drop n)
      | none => simpleDayScan fuel (isWordCh c) rest
    else simpleDayScan fuel (isWordCh c) rest

def simpleDayMatches (cs : List Char) : List (List Char) :=
  simpleDayScan cs.length false cs

/-- String.prototype.split on /\s*-\s*/. -/
def splitDashScan : Nat → List Char → List Char → List (List Char)
  | 0, acc, _ => [acc.reverse]
  | _, acc, [] => [acc.reverse]
  | fuel + 1, acc, c :: rest =>
    let (_, r1) := (c :: rest).span isWSCh
    match r1 with
    | '-' :: r2 =>
      let (_, r3) := r2.span isWSCh
      acc.reverse :: splitDashScan fuel [] r3
    | _ => splitDashScan fuel (c :: acc) rest

def splitDashWS (cs : List Char) : List (List Char) :=
  splitDashScan (cs.length + 1) [] cs

/-- parseInt(s, 10) restricted to nonnegative results: trim, take the
    leading digit run, NaN (none) when there is none. -/
def jsParseIntNat (cs : List Char) : Option Nat :=
  let ds := (jsTrim cs).takeWhile isDigitCh
  if ds.isEmpty then none else some (digitsToNat ds)

/-- String.prototype.indexOf: index of the first occurrence, -1 if none. -/
def strIndexOfFrom : Nat → List Char → List Char → Int
  | i, [], needle => if needle.isEmpty then (i : Int) else -1
  | i, c :: rest, needle =>
    if List.isPrefixOf needle (c :: rest) then (i : Int)
    else strIndexOfFrom (i + 1) rest needle

def strIndexOf (hay needle : List Char) : Int := strIndexOfFrom 0 hay needle

/-- String.prototype.substring(a, b): clamp both indices to [0, length],
    swap when reversed, and slice. -/
def jsSubstring (cs : List Char) (a b : Int) : List Char :=
  let n : Int := cs.length
  let a2 := (max 0 (min a n)).toNat
  let b2 := (max 0 (min b n)).toNat
  ((cs.take (max a2 b2)).drop (min a2 b2))

/-! ## parseSagradateText (src/websites/assosagre/routes.ts lines 35-122)

currentYear models new Date().getFullYear(), used only when the text
carries no 4-digit 20xx year. -/

def parseSagradateText (currentYear : Int) (sagradateText : String) :
    Option String × Option String :=
  if sagradateText = "" then (none, none) else
  let cs := sagradateText.data
  let year : List Char := (yearFirstMatch cs).getD currentYear.repr.data
  let months := monthMatches cs
  let dayMs := dayNumbersMatches cs
  if months.length > 0 && dayMs.length > 0 then
    let allDays : List Nat :=
      dayMs.flatMap fun m => (splitDashWS m).map fun p => (jsParseIntNat p).getD 0
    match allDays with
    | [] => (none, none) -- unreachable: every DAY_NUMBERS match holds a day
    | d0 :: ds =>
      let firstDay := ds.foldl min d0
      let lastDay := ds.foldl max d0
      if months.length == 1 then
        let month := months.headD []
        let sd := parseItalianDate (String.mk (firstDay.repr.data ++ ' ' :: month ++ ' ' :: year))
        let ed := parseItalianDate (String.mk (lastDay.repr.data ++ ' ' :: month ++ ' ' :: year))
        (sd.map formatISODate, ed.map formatISODate)
      else
        let firstMonth := months.headD []
        let lastMonth := months.getLastD []
        let firstMonthIndex := strIndexOf cs firstMonth
        let secondMonthIndex := strIndexOf cs lastMonth
        let beforeSecondMonth := jsSubstring cs 0 secondMonthIndex
        let daysBeforeSecondMonth :=
          (simpleDayMatches beforeSecondMonth).map fun p => (jsParseIntNat p).getD 0
        let afterFirstMonth := jsSubstring cs (firstMonthIndex + firstMonth.length) cs.length
        let daysAfterFirstMonth :=
          (simpleDayMatches afterFirstMonth).map fun p => (jsParseIntNat p).getD 0
        let startDay := daysBeforeSecondMonth.headD firstDay
        let endDay :=
          match daysAfterFirstMonth with
          | [] => lastDay
          | e :: es => es.foldl max e
        let sd := parseItalianDate (String.mk (startDay.repr.data ++ ' ' :: firstMonth ++ ' ' :: year))
        let ed := parseItalianDate (String.mk (endDay.repr.data ++ ' ' :: lastMonth ++ ' ' :: year))
        (sd.map formatISODate, ed.map formatISODate)
  else (none, none)

/-! ## generateSlug (src/strapi.ts lines 125-132) -/

/-- Unicode NFD decomposition for the Latin-1 letters the crawler can
    see after toLowerCase (base letter plus combining mark); characters
    without a decomposition at this range are left alone. -/
def nfdChar (c : Char) : List Char :=
  let comb (base : Char) (mark : Nat) : List Char := [base, Char.ofNat mark]
  match c.toNat with
  | 0xE0 => comb 'a' 0x300 | 0xE1 => comb 'a' 0x301 | 0xE2 => comb 'a' 0x302
  | 0xE3 => comb 'a' 0x303 | 0xE4 => comb 'a' 0x308 | 0xE5 => comb 'a' 0x30A
  | 0xE7 => comb 'c' 0x327
  | 0xE8 => comb 'e' 0x300 | 0xE9 => comb 'e' 0x301 | 0xEA => comb 'e' 0x302
  | 0xEB => comb 'e' 0x308
  | 0xEC => comb 'i' 0x300 | 0xED => comb 'i' 0x301 | 0xEE => comb 'i' 0x302
  | 0xEF => comb 'i' 0x308
  | 0xF1 => comb 'n' 0x303
  | 0xF2 => comb 'o' 0x300 | 0xF3 => comb 'o' 0x301 | 0xF4 => comb 'o' 0x302
  | 0xF5 => comb 'o' 0x303 | 0xF6 => comb 'o' 0x308
  | 0xF9 => comb 'u' 0x300 | 0xFA => comb 'u' 0x301 | 0xFB => comb 'u' 0x302
  | 0xFC => comb 'u' 0x308
  | 0xFD => comb 'y' 0x301 | 0xFF => comb 'y' 0x308
  | _ => [c]

/-- The class [̀-ͯ] of combining marks removed by the slug. -/
def isCombiningMark (c : Char) : Bool := 0x300 ≤ c.toNat && c.toNat ≤ 0x36F

/-- The class [a-z0-9] kept by the slug. -/
def isSlugAlnum (c : Char) : Bool := ('a' ≤ c && c ≤ 'z') || isDigitCh c

/-- Step .replace(/[^a-z0-9]+/g, "-"): each maximal run of characters outside
    [a-z0-9] becomes a single hyphen (fuel-indexed scan; fuel = length
    suffices since every step consumes at least one character). -/
def collapseRunsGo : Nat → List Char → List Char
  | 0, _ => []
  | _, [] => []
  | fuel + 1, c :: rest =>
    if isSlugAlnum c then c :: collapseRunsGo fuel rest
    else '-' :: collapseRunsGo fuel (rest.dropWhile (fun x => !isSlugAlnum x))

def collapseRuns (l : List Char) : List Char := collapseRunsGo l.length l

/-- Step .replace(/^-+|-+$/g, ""): drop leading and trailing hyphen runs. -/
def stripHyphens (cs : List Char) : List Char :=
  ((cs.dropWhile (· = '-')).reverse.dropWhile (· = '-')).reverse

def generateSlug (title : String) : String :=
  String.mk
    (stripHyphens (collapseRuns
      (((title.data.map jsToLower).flatMap nfdChar).filter (fun c => !isCombiningMark c))))

/-! ## extractCoordinates and the geocoding fallback (src/strapi.ts) -/

/-- extractCoordinates (lines 110-120): some (lat, lng) exactly when the
    location is an object whose geo has truthy latitude and longitude
    (in JS, 0 is falsy, so a zero coordinate falls through to null). -/
def extractCoordinates (r : FestivalRecord) : Option (Rat × Rat) :=
  match r.location with
  | .obj _ (some g) =>
    match g.latitude, g.longitude with
    | some la, some lo => if la ≠ 0 && lo ≠ 0 then some (la, lo) else none
    | _, _ => none
  | _ => none

/-- The position choice of transformToStrapiFormat (lines 225-235):
    embedded coordinates when extractCoordinates finds them, otherwise
    the geocoding collaborator result (an oracle parameter here). -/
def strapiPosition (r : FestivalRecord) (geocoded : Option (Rat × Rat)) :
    Option (Rat × Rat) :=
  match extractCoordinates r with
  | some p => some p
  | none => geocoded

/-! ## Detail-handler pipelines

Each detail handler is embedded as the sequence of pipeline checks it
performs on the candidate record, in source order, together with the
seen-set state it threads through isDuplicate.  Field extraction steps
do not influence the checks and produce no events; the zod validation
verdict (FestivalDataSchema.safeParse(...).success) is an oracle
parameter schemaOk, since zod internals are outside the verified core. -/

inductive PipeEvent where
  | temporalCheck (past : Bool)
  | duplicateCheck (dup : Bool)
  | validateCheck (ok : Bool)
  | emitRecord
deriving DecidableEq, Repr

/-- assosagre-detail (src/websites/assosagre/routes.ts lines 156-357):
    temporal check right after date parsing (line 189), duplicate check
    after extraction (line 313), validation (line 319), pushData
    (line 330). -/
def assosagreDetailTrace (today : Int) (schemaOk : Bool) (r : FestivalRecord)
    (seen : List String) : List PipeEvent × List String :=
  if isFestivalPast today r then ([.temporalCheck true], seen)
  else
    let dup := isDuplicate r seen
    if dup.1 then ([.temporalCheck false, .duplicateCheck true], dup.2)
    else if schemaOk then
      ([.temporalCheck false, .duplicateCheck false, .validateCheck true, .emitRecord],
       dup.2)
    else ([.temporalCheck false, .duplicateCheck false, .validateCheck false], dup.2)

/-- viviromagna-detail (src/websites/viviromagna/routes.ts lines
    185-400): empty-title early return (line 194), then the same
    temporal (line 236) - duplicate (line 355) - validate (line 361) -
    pushData (line 372) order. -/
def viviromagnaDetailTrace (today : Int) (schemaOk : Bool) (r : FestivalRecord)
    (seen : List String) : List PipeEvent × List String :=
  if r.title = "" then ([], seen)
  else if isFestivalPast today r then ([.temporalCheck true], seen)
  else
    let dup := isDuplicate r seen
    if dup.1 then ([.temporalCheck false, .duplicateCheck true], dup.2)
    else if schemaOk then
      ([.temporalCheck false, .duplicateCheck false, .validateCheck true, .emitRecord],
       dup.2)
    else ([.temporalCheck false, .duplicateCheck false, .validateCheck false], dup.2)

/-- romagna-emilia-festival-detail (src/websites/romagna-emilia/routes.ts
    lines 72-190): extraction first, then temporal (line 142), duplicate
    (line 148), validate (line 153), pushData (line 164). -/
def romagnaEmiliaDetailTrace (today : Int) (schemaOk : Bool) (r : FestivalRecord)
    (seen : List String) : List PipeEvent × List String :=
  if isFestivalPast today r then ([.temporalCheck true], seen)
  else
    let dup := isDuplicate r seen
    if dup.1 then ([.temporalCheck false, .duplicateCheck true], dup.2)
    else if schemaOk then
      ([.temporalCheck false, .duplicateCheck false, .validateCheck true, .emitRecord],
       dup.2)
    else ([.temporalCheck false, .duplicateCheck false, .validateCheck false], dup.2)

/-- festival-detail (src/routes.ts lines 56-241): this handler performs
    NO temporal and NO duplicate check (isFestivalPast and isDuplicate
    are not even imported by src/routes.ts); it validates (line 207) and
    pushes (line 218). -/
def festivalDetailTrace (schemaOk : Bool) (_r : FestivalRecord)
    (seen : List String) : List PipeEvent × List String :=
  if schemaOk then ([.validateCheck true, .emitRecord], seen)
  else ([.validateCheck false], seen)

/-! ## Supporting lemmas -/

theorem hasFourDigitRun_cons (c : Char) (l : List Char)
    (h : hasFourDigitRun l = true) : hasFourDigitRun (c :: l) = true := by
  cases l with
  | nil => simp [hasFourDigitRun] at h
  | cons a t1 =>
    cases t1 with
    | nil => simp [hasFourDigitRun] at h
    | cons b t2 =>
      cases t2 with
      | nil => simp [hasFourDigitRun] at h
      | cons d t3 =>
        cases t3 with
        | nil => simp [hasFourDigitRun] at h
        | cons e t4 =>
          simp only [hasFourDigitRun, Bool.or_eq_true] at h ⊢
          exact Or.inr h

theorem hasFourDigitRun_of_suffix {r l : List Char} (hs : r <:+ l)
    (h : hasFourDigitRun r = true) : hasFourDigitRun l = true := by
  obtain ⟨t, rfl⟩ := hs
  induction t with
  | nil => simpa using h
  | cons c t ih => exact hasFourDigitRun_cons c _ ih

theorem hasFourDigitRun_tail {c : Char} {l : List Char}
    (h : hasFourDigitRun (c :: l) = false) : hasFourDigitRun l = false := by
  by_contra hne
  rw [hasFourDigitRun_cons c l (Bool.not_eq_false _ |>.mp hne)] at h
  exact Bool.true_eq_false.mp h

theorem fullDateTail_hasRun {cs mon yr suf} (h : fullDateTail cs = some (mon, yr, suf)) :
    hasFourDigitRun cs = true := by
  unfold fullDateTail at h
  split at h
  · exact absurd h (by simp)
  split at h
  · exact absurd h (by simp)
  split at h
  · exact absurd h (by simp)
  split at h
  case _ a b c d rest heq =>
    split at h
    case isTrue hd =>
      have h4 : hasFourDigitRun (a :: b :: c :: d :: rest) = true := by
        simp only [hasFourDigitRun, Bool.or_eq_true]
        exact Or.inl hd
      rw [← heq] at h4
      exact hasFourDigitRun_of_suffix
        (((List.dropWhile_suffix _).trans (List.dropWhile_suffix _)).trans
          (List.dropWhile_suffix _)) h4
    case isFalse hd => exact absurd h (by simp)
  · exact absurd h (by simp)

theorem tryFullDateAt_hasRun {cs m suf} (h : tryFullDateAt cs = some (m, suf)) :
    hasFourDigitRun cs = true := by
  match cs with
  | [] => simp [tryFullDateAt] at h
  | [a] => simp [tryFullDateAt] at h
  | a :: b :: rest2 =>
    simp only [tryFullDateAt] at h
    split at h
    · split at h
      · cases htl : fullDateTail rest2 with
        | none => rw [htl] at h; exact absurd h (by simp)
        | some v =>
          obtain ⟨mon, yr, sf⟩ := v
          exact hasFourDigitRun_cons _ _ (hasFourDigitRun_cons _ _
            (fullDateTail_hasRun htl))
      · cases htl : fullDateTail (b :: rest2) with
        | none => rw [htl] at h; exact absurd h (by simp)
        | some v =>
          obtain ⟨mon, yr, sf⟩ := v
          exact hasFourDigitRun_cons _ _ (fullDateTail_hasRun htl)
    · exact absurd h (by simp)

theorem fullDateScan_eq_nil_of_noRun :
    ∀ (fuel : Nat) (cs : List Char), hasFourDigitRun cs = false →
      fullDateScan fuel cs = [] := by
  intro fuel
  induction fuel with
  | zero => intro cs _; simp [fullDateScan]
  | succ n ih =>
    intro cs hrun
    cases cs with
    | nil => simp [fullDateScan]
    | cons c rest =>
      unfold fullDateScan
      cases htry : tryFullDateAt (c :: rest) with
      | some v =>
        obtain ⟨m, suf⟩ := v
        rw [tryFullDateAt_hasRun htry] at hrun
        exact absurd hrun (by simp)
      | none => exact ih rest (hasFourDigitRun_tail hrun)

/-! ## Claim theorems -/

/-- C1 counterexample: the input "15 novembre" holds a 1-2 digit day and
    a recognized Italian month name and no 4-digit year, yet
    parseItalianDate returns null rather than a date defaulting to the
    current year: the full-date regex demands a \d{4} year, so there is
    no match at all. -/
theorem claim1_counterexample : parseItalianDate "15 novembre" = none := by decide

/-- C1 (amended): for parseItalianDate itself a 4-digit year is
    mandatory, not optional: any input without even a run of four
    consecutive decimal digits in its normalized text returns null.  The
    current-year default promised by the spec lives in the callers: for
    example parseSagradateText, given the yearless text "15 Novembre"
    and current year 2031, appends the current year itself and produces
    the 15 November 2031 range. -/
theorem claim1_year_required (s : String)
    (h : hasFourDigitRun (normChars s) = false) :
    parseItalianDate s = none ∧
    parseSagradateText 2031 "15 Novembre" = (some "2031-11-15", some "2031-11-15") := by
  constructor
  · have hnil : fullDateMatches (normChars s) = [] := by
      unfold fullDateMatches
      exact fullDateScan_eq_nil_of_noRun _ _ h
    simp only [parseItalianDate, hnil, List.getLast?_nil]
  · decide

/-- C1 witness: the amended theorem applied at "15 novembre". -/
theorem claim1_witness :
    parseItalianDate "15 novembre" = none ∧
    parseSagradateText 2031 "15 Novembre" = (some "2031-11-15", some "2031-11-15") :=
  claim1_year_required "15 novembre" (by decide)

/-- C2 counterexample: a record with no startDate, no endDate and a
    non-empty raw dates array none of whose fragments parses is reported
    PAST (true) by isFestivalPast, not kept as the claim states: the
    loop falls through to return true even when zero fragments parsed. -/
theorem claim2_counterexample :
    isFestivalPast 20000 { dates := ["sagra paesana"] } = true := by decide

/-- C2 (amended): for a record with no startDate and no endDate and a
    non-empty raw dates array, isFestivalPast returns false (keep)
    exactly when some fragment parses to a date on or after today; in
    every other case, including when no fragment parses at all, it
    returns true (past).  The conservative keep applies only when the
    dates array itself is empty. -/
theorem claim2_dates_rule (today : Int) (r : FestivalRecord)
    (hE : r.endDate = none) (hS : r.startDate = none) (hD : r.dates ≠ []) :
    isFestivalPast today r = false ↔
      ∃ s ∈ r.dates, ∃ d, parseItalianDate s = some d ∧ today ≤ d := by
  have h1 : pastViaField today r.endDate = none := by rw [hE]; rfl
  have h2 : pastViaField today r.startDate = none := by rw [hS]; rfl
  have hlen : 0 < r.dates.length := List.length_pos.mpr hD
  unfold isFestivalPast
  rw [h1, h2]
  simp only [gt_iff_lt]
  rw [if_pos hlen, Bool.not_eq_false', List.any_eq_true]
  constructor
  · rintro ⟨s, hs, hf⟩
    refine ⟨s, hs, ?_⟩
    cases hp : parseItalianDate s with
    | none => rw [hp] at hf; exact absurd hf (by simp)
    | some d =>
      rw [hp] at hf
      exact ⟨d, rfl, by simpa using hf⟩
  · rintro ⟨s, hs, d, hp, hle⟩
    refine ⟨s, hs, ?_⟩
    rw [hp]
    simpa using hle

/-- C2 witness: the amended rule applied to a concrete record with one
    parseable future fragment. -/
theorem claim2_witness :
    isFestivalPast 0 { dates := ["9 novembre 2025"] } = false ↔
      ∃ s ∈ ({ dates := ["9 novembre 2025"] } : FestivalRecord).dates,
        ∃ d, parseItalianDate s = some d ∧ (0 : Int) ≤ d :=
  claim2_dates_rule 0 _ rfl rfl (by decide)

/-- C3: when endDate is present and parses, isFestivalPast is true
    exactly when the end date is strictly before the start of today;
    concretely (today = 7 Nov 2025) an endDate of 6 Nov 2025 is past, an
    endDate of 7 Nov 2025 is not; and a record with no date information
    at all is never past. -/
theorem claim3_endDate_rule :
    (∀ (today : Int) (r : FestivalRecord) (s : String) (d : Int),
        r.endDate = some s → jsParseDate s = some d →
        isFestivalPast today r = decide (d < today)) ∧
    isFestivalPast (daysFromCivil 2025 11 7) { endDate := some "2025-11-06" } = true ∧
    isFestivalPast (daysFromCivil 2025 11 7) { endDate := some "2025-11-07" } = false ∧
    (∀ (today : Int) (r : FestivalRecord),
        r.endDate = none → r.startDate = none → r.dates = [] →
        isFestivalPast today r = false) := by
  refine ⟨?_, by decide, by decide, ?_⟩
  · intro today r s d hE hP
    have hne : ¬(s = "") := by
      intro h0
      rw [h0] at hP
      have hpe : jsParseDate "" = none := rfl
      rw [hpe] at hP
      exact Option.noConfusion hP
    have h1 : pastViaField today r.endDate = some (decide (d < today)) := by
      rw [hE]
      simp only [pastViaField]
      rw [if_neg hne, hP]
      rfl
    unfold isFestivalPast
    rw [h1]
  · intro today r hE hS hD
    have h1 : pastViaField today r.endDate = none := by rw [hE]; rfl
    have h2 : pastViaField today r.startDate = none := by rw [hS]; rfl
    unfold isFestivalPast
    rw [h1, h2, hD]
    rfl

/-- C3 witness: the rule applied at a concrete record and day. -/
theorem claim3_witness :
    isFestivalPast 20400 { endDate := some "2025-11-06" } = decide ((20398 : Int) < 20400) :=
  claim3_endDate_rule.1 20400 { endDate := some "2025-11-06" } "2025-11-06" 20398 rfl
    (by decide)

/-- C4 counterexample: the festival-detail handler of src/routes.ts
    emits with NO temporal and NO duplicate check: a record whose
    endDate is 1 Jan 2000, long past relative to the day numbered 20000,
    is validated and emitted, and its pipeline trace holds no
    temporalCheck and no duplicateCheck event at all. -/
theorem claim4_counterexample :
    (festivalDetailTrace true { endDate := some "2000-01-01" } []).1 =
      [PipeEvent.validateCheck true, PipeEvent.emitRecord] ∧
    isFestivalPast 20000 { endDate := some "2000-01-01" } = true := by decide

/-- C4 (amended): the three registered detail handlers (romagna-emilia,
    assosagre, viviromagna) emit a record only after passing the
    Temporal Filter, the Duplicate Detector and the Validator, in that
    order; the legacy festival-detail handler of src/routes.ts, not
    registered by src/main.ts, emits after validation alone. -/
theorem claim4_checks_order (today : Int) (ok : Bool) (r : FestivalRecord)
    (seen : List String) :
    (PipeEvent.emitRecord ∈ (assosagreDetailTrace today ok r seen).1 →
      (assosagreDetailTrace today ok r seen).1 =
        [PipeEvent.temporalCheck false, PipeEvent.duplicateCheck false,
         PipeEvent.validateCheck true, PipeEvent.emitRecord]) ∧
    (PipeEvent.emitRecord ∈ (viviromagnaDetailTrace today ok r seen).1 →
      (viviromagnaDetailTrace today ok r seen).1 =
        [PipeEvent.temporalCheck false, PipeEvent.duplicateCheck false,
         PipeEvent.validateCheck true, PipeEvent.emitRecord]) ∧
    (PipeEvent.emitRecord ∈ (romagnaEmiliaDetailTrace today ok r seen).1 →
      (romagnaEmiliaDetailTrace today ok r seen).1 =
        [PipeEvent.temporalCheck false, PipeEvent.duplicateCheck false,
         PipeEvent.validateCheck true, PipeEvent.emitRecord]) := by
  refine ⟨?_, ?_, ?_⟩
  · intro h
    by_cases hp : isFestivalPast today r = true
    · simp [assosagreDetailTrace, hp] at h
    · by_cases hd : (isDuplicate r seen).1 = true
      · simp [assosagreDetailTrace, hp, hd] at h
      · by_cases hok : ok = true
        · simp [assosagreDetailTrace, hp, hd, hok]
        · simp [assosagreDetailTrace, hp, hd, hok] at h
  · intro h
    by_cases ht : r.title = ""
    · simp [viviromagnaDetailTrace, ht] at h
    · by_cases hp : isFestivalPast today r = true
      · simp [viviromagnaDetailTrace, ht, hp] at h
      · by_cases hd : (isDuplicate r seen).1 = true
        · simp [viviromagnaDetailTrace, ht, hp, hd] at h
        · by_cases hok : ok = true
          · simp [viviromagnaDetailTrace, ht, hp, hd, hok]
          · simp [viviromagnaDetailTrace, ht, hp, hd, hok] at h
  · intro h
    by_cases hp : isFestivalPast today r = true
    · simp [romagnaEmiliaDetailTrace, hp] at h
    · by_cases hd : (isDuplicate r seen).1 = true
      · simp [romagnaEmiliaDetailTrace, hp, hd] at h
      · by_cases hok : ok = true
        · simp [romagnaEmiliaDetailTrace, hp, hd, hok]
        · simp [romagnaEmiliaDetailTrace, hp, hd, hok] at h

/-- C4 witness: a fresh record emitted by the assosagre handler carries
    the full ordered check trace. -/
theorem claim4_witness :
    (assosagreDetailTrace 0 true { title := "Sagra" } []).1 =
      [PipeEvent.temporalCheck false, PipeEvent.duplicateCheck false,
       PipeEvent.validateCheck true, PipeEvent.emitRecord] :=
  (claim4_checks_order 0 true { title := "Sagra" } []).1 (by decide)

/-- C5: on a record whose key is not yet in the seen-set, isDuplicate
    returns false and remembers the key, and an immediately repeated
    call with the same record returns true. -/
theorem claim5_idempotence (r : FestivalRecord) (seen : List String)
    (h : generateFestivalKey r ∉ seen) :
    (isDuplicate r seen).1 = false ∧
    generateFestivalKey r ∈ (isDuplicate r seen).2 ∧
    (isDuplicate r (isDuplicate r seen).2).1 = true := by
  unfold isDuplicate
  rw [if_neg h]
  refine ⟨rfl, List.mem_cons_self _ _, ?_⟩
  rw [if_pos (List.mem_cons_self _ _)]

/-- C5 witness: the idempotence theorem applied on the empty seen-set. -/
theorem claim5_witness :
    (isDuplicate { title := "Sagra del Tortello", location := .str "Bologna" } []).1 = false ∧
    generateFestivalKey { title := "Sagra del Tortello", location := .str "Bologna" } ∈
      (isDuplicate { title := "Sagra del Tortello", location := .str "Bologna" } []).2 ∧
    (isDuplicate { title := "Sagra del Tortello", location := .str "Bologna" }
      ((isDuplicate { title := "Sagra del Tortello", location := .str "Bologna" } []).2)).1 =
        true :=
  claim5_idempotence { title := "Sagra del Tortello", location := .str "Bologna" } []
    (by simp)

theorem isDuplicate_fst_eq_true {r : FestivalRecord} {st : List String}
    (h : generateFestivalKey r ∈ st) : (isDuplicate r st).1 = true := by
  unfold isDuplicate
  rw [if_pos h]

theorem key_mem_isDuplicate (r : FestivalRecord) (st : List String) :
    generateFestivalKey r ∈ (isDuplicate r st).2 := by
  unfold isDuplicate
  split
  case isTrue h => exact h
  case isFalse h => exact List.mem_cons_self _ _

theorem isDuplicate_preserves_mem {k : String} {st : List String}
    (h : k ∈ st) (r : FestivalRecord) : k ∈ (isDuplicate r st).2 := by
  unfold isDuplicate
  split
  · exact h
  · exact List.mem_cons_of_mem _ h

theorem runDuplicateCalls_preserves_mem {k : String} :
    ∀ (rs : List FestivalRecord) (st : List String),
      k ∈ st → k ∈ runDuplicateCalls rs st := by
  intro rs
  induction rs with
  | nil => intro st h; exact h
  | cons r rs ih => intro st h; exact ih _ (isDuplicate_preserves_mem h r)

/-- C9: once a key enters the seen-set it stays for the rest of the run:
    the key of r is remembered by its own isDuplicate call, survives any
    later sequence of calls, after which a call with the same key
    returns true; no isDuplicate call ever removes a key; the key is
    remembered by the assosagre handler even on a run where validation
    fails afterwards (the state after the handler still holds it, for
    any validator verdict); and clearDuplicateCache is the only reset,
    yielding the empty set. -/
theorem claim9_persistence (r : FestivalRecord) (rs : List FestivalRecord)
    (seen : List String) :
    generateFestivalKey r ∈ (isDuplicate r seen).2 ∧
    (isDuplicate r (runDuplicateCalls rs (isDuplicate r seen).2)).1 = true ∧
    (∀ (r2 : FestivalRecord) (st : List String) (k : String),
        k ∈ st → k ∈ (isDuplicate r2 st).2) ∧
    (∀ (today : Int) (ok : Bool) (r3 : FestivalRecord) (st : List String),
        isFestivalPast today r3 = false →
        generateFestivalKey r3 ∈ (assosagreDetailTrace today ok r3 st).2) ∧
    clearDuplicateCache = [] := by
  refine ⟨key_mem_isDuplicate r seen, ?_, ?_, ?_, rfl⟩
  · exact isDuplicate_fst_eq_true
      (runDuplicateCalls_preserves_mem rs _ (key_mem_isDuplicate r seen))
  · intro r2 st k hk
    exact isDuplicate_preserves_mem hk r2
  · intro today ok r3 st hpast
    simp only [assosagreDetailTrace, hpast, Bool.false_eq_true, if_false]
    split
    · exact key_mem_isDuplicate r3 st
    · split
      · exact key_mem_isDuplicate r3 st
      · exact key_mem_isDuplicate r3 st

/-- C9 witness: persistence applied on concrete records: the key of the
    first record is still flagged duplicate after an unrelated record
    was processed in between. -/
theorem claim9_witness :
    (isDuplicate { title := "Sagra A" }
      (runDuplicateCalls [{ title := "Sagra B" }]
        (isDuplicate { title := "Sagra A" } []).2)).1 = true :=
  (claim9_persistence { title := "Sagra A" } [{ title := "Sagra B" }] []).2.1

/-- C6: the two documented range-splitting examples of
    parseSagradateText.  One month name: "7-8-14-15 Novembre 2025"
    yields start 7 November 2025 and end 15 November 2025.  Two month
    names: "31 Ottobre 1-2 Novembre 2025" yields start 31 October 2025
    and end 2 November 2025.  (The current-year argument 1999 is
    irrelevant: both texts carry their year.) -/
theorem claim6_range_splitting :
    parseSagradateText 1999 "7-8-14-15 Novembre 2025" =
      (some "2025-11-07", some "2025-11-15") ∧
    parseSagradateText 1999 "31 Ottobre 1-2 Novembre 2025" =
      (some "2025-10-31", some "2025-11-02") := by
  exact ⟨rfl, rfl⟩

/-- C8 counterexample: this input holds two full triples with recognized
    months (1 maggio 2025 and 2 giugno 2025) followed by a pseudo-triple
    whose word is not a month; the claim requires the date of the last
    recognized triple, 2 June 2025, but parseItalianDate keys on the
    last REGEX match, whose word "bbbb" is unrecognized, and returns
    null. -/
theorem claim8_counterexample :
    parseItalianDate "1 maggio 2025 2 giugno 2025 3 bbbb 2026" = none := by decide

/-- C8 (amended): parseItalianDate is determined by the LAST match of
    the day-word-year pattern alone: whenever the last match exists its
    word is looked up and, when recognized, the result is the date built
    from that match, with every earlier triple ignored; when the word of
    the last match is not a recognized month the result is null even if
    earlier matches were recognized. -/
theorem claim8_last_triple (s : String) (m : FullDateMatch)
    (hlast : (fullDateMatches (normChars s)).getLast? = some m) :
    parseItalianDate s =
      (monthMap m.monthWord).map
        (fun mo => jsMakeDate (digitsToNat m.yearDigits) mo (digitsToNat m.dayDigits)) ∧
    parseItalianDate "1 maggio 2025 2 giugno 2025" = some (jsMakeDate 2025 5 2) := by
  constructor
  · unfold parseItalianDate
    rw [hlast]
    cases hm : monthMap m.monthWord <;> simp [hm]
  · decide

/-- C8 witness: the amended theorem applied to a two-triple input whose
    last match is 2 giugno 2025. -/
theorem claim8_witness :
    parseItalianDate "1 maggio 2025 2 giugno 2025" =
      (monthMap "giugno".data).map
        (fun mo => jsMakeDate (digitsToNat ['2', '0', '2', '5']) mo (digitsToNat ['2'])) ∧
    parseItalianDate "1 maggio 2025 2 giugno 2025" = some (jsMakeDate 2025 5 2) :=
  claim8_last_triple "1 maggio 2025 2 giugno 2025"
    ⟨['2'], "giugno".data, ['2', '0', '2', '5']⟩ (by decide)

/-- C10: extractCoordinates returns a pair exactly when the location is
    a structured object whose geo carries a present and non-zero
    latitude and a present and non-zero longitude (JS truthiness makes 0
    falsy); when it returns null the Strapi transform falls back to the
    external geocoder; concretely a latitude of exactly 0 (equator)
    yields null and a non-zero pair is returned as is. -/
theorem claim10_coordinates (r : FestivalRecord) (geocoded : Option (Rat × Rat)) :
    ((extractCoordinates r).isSome = true ↔
      ∃ (name : Option String) (g : GeoVal) (la lo : Rat),
        r.location = .obj name (some g) ∧ g.latitude = some la ∧
        g.longitude = some lo ∧ la ≠ 0 ∧ lo ≠ 0) ∧
    (extractCoordinates r = none → strapiPosition r geocoded = geocoded) ∧
    extractCoordinates
      { location := .obj (some "Fiera") (some { latitude := some 0, longitude := some 51 }) } =
        none ∧
    extractCoordinates
      { location := .obj none (some { latitude := some 45, longitude := some 11 }) } =
        some (45, 11) := by
  refine ⟨?_, ?_, by decide, by decide⟩
  · constructor
    · intro h
      unfold extractCoordinates at h
      split at h
      case _ name g heq =>
        cases hla : g.latitude with
        | none => rw [hla] at h; simp at h
        | some la =>
          cases hlo : g.longitude with
          | none => rw [hla, hlo] at h; simp at h
          | some lo =>
            rw [hla, hlo] at h
            dsimp only at h
            split at h
            case isTrue hcond =>
              have hc : la ≠ 0 ∧ lo ≠ 0 := by simpa using hcond
              exact ⟨name, g, la, lo, heq, hla, hlo, hc.1, hc.2⟩
            case isFalse hcond => simp at h
      case _ => simp at h
    · rintro ⟨name, g, la, lo, hloc, hla, hlo, hz1, hz2⟩
      unfold extractCoordinates
      rw [hloc]
      simp only [hla, hlo]
      rw [if_pos (by simp [hz1, hz2])]
      rfl
  · intro h
    unfold strapiPosition
    rw [h]

/-- C10 witness: the geocoding fallback fires on a record whose
    location is plain text. -/
theorem claim10_witness :
    strapiPosition { location := .str "Bologna" } (some (44, 11)) = some (44, 11) :=
  (claim10_coordinates { location := .str "Bologna" } (some (44, 11))).2.1 rfl

theorem collapseRunsGo_chars :
    ∀ (fuel : Nat) (l : List Char), ∀ c ∈ collapseRunsGo fuel l,
      isSlugAlnum c = true ∨ c = '-' := by
  intro fuel
  induction fuel with
  | zero => intro l c hc; simp [collapseRunsGo] at hc
  | succ n ih =>
    intro l c hc
    cases l with
    | nil => simp [collapseRunsGo] at hc
    | cons a rest =>
      simp only [collapseRunsGo] at hc
      by_cases ha : isSlugAlnum a = true
      · rw [if_pos ha, List.mem_cons] at hc
        rcases hc with hc | hc
        · exact Or.inl (hc ▸ ha)
        · exact ih _ c hc
      · rw [if_neg ha, List.mem_cons] at hc
        rcases hc with hc | hc
        · exact Or.inr hc
        · exact ih _ c hc

theorem collapseRuns_chars (l : List Char) :
    ∀ c ∈ collapseRuns l, isSlugAlnum c = true ∨ c = '-' :=
  collapseRunsGo_chars l.length l

theorem head?_dropWhile_false {p : Char → Bool} {l : List Char} {a : Char}
    (h : (l.dropWhile p).head? = some a) : p a = false := by
  have hne : l.dropWhile p ≠ [] := by
    intro h0; rw [h0] at h; exact Option.noConfusion h
  have h1 := List.head_dropWhile_not p l hne
  rw [List.head?_eq_head hne, Option.some_inj] at h
  rwa [h] at h1

theorem stripHyphens_subset {c : Char} {l : List Char}
    (h : c ∈ stripHyphens l) : c ∈ l := by
  unfold stripHyphens at h
  rw [List.mem_reverse] at h
  have h2 := (List.dropWhile_suffix (l := (l.dropWhile (· = '-')).reverse)
    (fun x => x = '-')).subset h
  rw [List.mem_reverse] at h2
  exact (List.dropWhile_suffix (fun x => x = '-')).subset h2

theorem stripHyphens_head (l : List Char) : (stripHyphens l).head? ≠ some '-' := by
  unfold stripHyphens
  intro h
  rw [List.head?_reverse] at h
  cases hB : ((l.dropWhile (· = '-')).reverse.dropWhile (· = '-')) with
  | nil => rw [hB] at h; exact Option.noConfusion h
  | cons b bs =>
    rw [hB] at h
    obtain ⟨t, ht⟩ := List.dropWhile_suffix (l := (l.dropWhile (· = '-')).reverse)
      (fun x => x = '-')
    rw [hB] at ht
    have hA : (l.dropWhile (· = '-')).reverse.getLast? = some '-' := by
      rw [← ht, List.getLast?_append, h]
      rfl
    rw [List.getLast?_reverse] at hA
    have := head?_dropWhile_false hA
    simp at this

theorem stripHyphens_last (l : List Char) : (stripHyphens l).getLast? ≠ some '-' := by
  unfold stripHyphens
  intro h
  rw [List.getLast?_reverse] at h
  have := head?_dropWhile_false h
  simp at this

/-- C7: slug generation: the documented concrete example (lowercasing,
    diacritic stripping, run collapsing, hyphen trimming), and the
    general shape facts: every slug character is a lowercase letter, a
    digit or a hyphen, and a slug never starts or ends with a hyphen. -/
theorem claim7_slug :
    generateSlug "Sagra dei Tortelli — Città" = "sagra-dei-tortelli-citta" ∧
    (∀ (t : String), ∀ c ∈ (generateSlug t).data, isSlugAlnum c = true ∨ c = '-') ∧
    (∀ (t : String), (generateSlug t).data.head? ≠ some '-' ∧
        (generateSlug t).data.getLast? ≠ some '-') := by
  refine ⟨by decide, ?_, ?_⟩
  · intro t c hc
    exact collapseRuns_chars _ c (stripHyphens_subset hc)
  · intro t
    exact ⟨stripHyphens_head _, stripHyphens_last _⟩

/-- C7 witness: the character-shape part applied to a concrete slug
    character. -/
theorem claim7_witness : isSlugAlnum 'c' = true ∨ 'c' = '-' :=
  claim7_slug.2.1 "Città" 'c' (by decide)

end SagreCrawler

